import Mathlib

/-!
Shallow embedding of `src/matcher.h` (class `RobustMatcher`): the ratio
filter, the symmetry filter, and the RANSAC geometric verifier, together
with theorems about them.

Modelling choices:
* `cv::Point2f` coordinates and `cv::DMatch::distance` are modelled as `ℚ`
  (exact arithmetic in place of IEEE floats).
* `cv::DMatch` keeps its `queryIdx`, `trainIdx` (C++ `int`, modelled as `ℤ`)
  and `distance` fields.
* The external estimator `cv::findFundamentalMat` is an oracle passed as a
  parameter (a `FundOracle`); the fundamental-matrix type is a type
  parameter `M`, since this code treats the matrix as opaque.
* Member state touched by `ransacTest` (the accumulated `points1`/`points2`
  buffers and the configuration fields) is threaded explicitly through a
  `RobustMatcher` structure.
-/

/-- A 2D point, as `cv::Point2f` with exact coordinates. -/
structure Point where
  x : ℚ
  y : ℚ
  deriving DecidableEq, Repr

/-- A keypoint; only its position `pt` is read by this code. -/
structure KeyPoint where
  pt : Point
  deriving DecidableEq, Repr

/-- The fields of `cv::DMatch` read by this code. -/
structure DMatch where
  queryIdx : ℤ
  trainIdx : ℤ
  distance : ℚ
  deriving DecidableEq, Repr

/-- Configuration and mutable state of `RobustMatcher` that the embedded
functions read or write: the four policy parameters and the accumulated
point-pair buffers (public members `points1`, `points2`). -/
structure RobustMatcher where
  ratio : ℚ := 65 / 100
  refineF : Bool := true
  distance : ℚ := 3
  confidence : ℚ := 99 / 100
  points1 : List Point := []
  points2 : List Point := []
  deriving Repr

/-- `RobustMatcher::ratioTest`: walk the neighbor lists; an entry with two
identified nearest neighbors whose distance ratio exceeds `ratio` is cleared
and counted, an entry without two neighbors is cleared and counted, every
other entry is left untouched. Returns the removed count together with the
updated container (the C++ mutates the vector in place). -/
def ratioTest (ratio : ℚ) : List (List DMatch) → Nat × List (List DMatch)
  | [] => (0, [])
  | m :: rest =>
    let t := ratioTest ratio rest
    match m with
    | d0 :: d1 :: tl =>
      if d0.distance / d1.distance > ratio then
        (t.1 + 1, [] :: t.2)
      else
        (t.1, (d0 :: d1 :: tl) :: t.2)
    | _ => (t.1 + 1, [] :: t.2)

/-- The branch condition of `ratioTest` under which an entry survives:
it has at least two neighbors and the nearest-to-second distance ratio does
not exceed the threshold. -/
def ratioKeep (ratio : ℚ) : List DMatch → Bool
  | d0 :: d1 :: _ => !(d0.distance / d1.distance > ratio)
  | _ => false

theorem ratioTest_eq (ratio : ℚ) (ms : List (List DMatch)) :
    ratioTest ratio ms =
      ((ms.filter (fun m => !(ratioKeep ratio m))).length,
        ms.map (fun m => if ratioKeep ratio m then m else [])) := by
  induction ms with
  | nil => rfl
  | cons m rest ih =>
    match m with
    | [] => simp [ratioTest, ratioKeep, ih]
    | [d0] => simp [ratioTest, ratioKeep, ih]
    | d0 :: d1 :: tl =>
      by_cases h : d0.distance / d1.distance > ratio <;>
        simp [ratioTest, ratioKeep, ih, h]

theorem ratioKeep_iff (ratio : ℚ) (m : List DMatch) :
    ratioKeep ratio m = true ↔
      ∃ d0 d1 tl, m = d0 :: d1 :: tl ∧ d0.distance / d1.distance ≤ ratio := by
  match m with
  | [] => simp [ratioKeep]
  | [d0] => simp [ratioKeep]
  | d0 :: d1 :: tl =>
    simp only [ratioKeep, Bool.not_eq_true', decide_eq_false_iff_not, not_lt]
    constructor
    · intro h
      exact ⟨d0, d1, tl, rfl, h⟩
    · rintro ⟨e0, e1, tl2, heq, hle⟩
      cases heq
      exact hle

/-- The inner loop of `RobustMatcher::symmetryTest` for one outer entry
`m1` (already known to have at least two neighbors): scan `matches2` in
order, skip entries with fewer than two neighbors, and on the first entry
whose rank-0 match mirrors the rank-0 match of `m1` return the correspondence
built from `m1`'s rank-0 match (the C++ then does `break`). -/
def firstSymmetric (m1 : List DMatch) : List (List DMatch) → Option DMatch
  | [] => none
  | m2 :: rest =>
    if m2.length < 2 then
      firstSymmetric m1 rest
    else
      match m1, m2 with
      | d1 :: _, d2 :: _ =>
        if d1.queryIdx = d2.trainIdx ∧ d2.queryIdx = d1.trainIdx then
          some { queryIdx := d1.queryIdx, trainIdx := d1.trainIdx,
                 distance := d1.distance }
        else
          firstSymmetric m1 rest
      | _, _ => firstSymmetric m1 rest

/-- `RobustMatcher::symmetryTest`: for every entry of `matches1` with at
least two neighbors, scan `matches2` for the first symmetric counterpart and
push the resulting correspondence onto `symMatches` (the caller-supplied
output vector, which is never cleared). -/
def symmetryTest (matches1 matches2 : List (List DMatch))
    (symMatches : List DMatch) : List DMatch :=
  match matches1 with
  | [] => symMatches
  | m1 :: rest =>
    if m1.length < 2 then
      symmetryTest rest matches2 symMatches
    else
      match firstSymmetric m1 matches2 with
      | some d => symmetryTest rest matches2 (symMatches ++ [d])
      | none => symmetryTest rest matches2 symMatches

theorem symmetryTest_append (matches1 matches2 : List (List DMatch))
    (a b : List DMatch) :
    symmetryTest matches1 matches2 (a ++ b) =
      a ++ symmetryTest matches1 matches2 b := by
  induction matches1 generalizing b with
  | nil => rfl
  | cons m1 rest ih =>
    by_cases h1 : m1.length < 2
    · simp [symmetryTest, h1, ih]
    · cases hs : firstSymmetric m1 matches2 with
      | none => simp [symmetryTest, h1, hs, ih]
      | some d =>
        simp only [symmetryTest, h1, if_false, hs]
        rw [List.append_assoc, ih]

theorem symmetryTest_eq_filterMap (matches1 matches2 : List (List DMatch)) :
    symmetryTest matches1 matches2 [] =
      matches1.filterMap
        (fun m1 => if m1.length < 2 then none else firstSymmetric m1 matches2) := by
  induction matches1 with
  | nil => rfl
  | cons m1 rest ih =>
    by_cases h1 : m1.length < 2
    · simp [symmetryTest, h1, List.filterMap_cons, ih]
    · cases hs : firstSymmetric m1 matches2 with
      | none => simp [symmetryTest, h1, hs, List.filterMap_cons, ih]
      | some d =>
        simp only [symmetryTest, h1, if_false, hs, List.filterMap_cons]
        rw [show ([] ++ [d] : List DMatch) = [d] ++ [] from rfl,
          symmetryTest_append, ih]
        simp

theorem firstSymmetric_eq_some (d1 : DMatch) (t1 : List DMatch)
    (matches2 : List (List DMatch)) (d : DMatch) :
    firstSymmetric (d1 :: t1) matches2 = some d ↔
      d = ⟨d1.queryIdx, d1.trainIdx, d1.distance⟩ ∧
        ∃ m2 ∈ matches2, 2 ≤ m2.length ∧
          ∃ d2, m2.head? = some d2 ∧
            d1.queryIdx = d2.trainIdx ∧ d2.queryIdx = d1.trainIdx := by
  induction matches2 with
  | nil => simp [firstSymmetric]
  | cons m2 rest ih =>
    by_cases h2 : m2.length < 2
    · have h2' : ¬ 2 ≤ m2.length := by omega
      simp only [firstSymmetric, h2, if_true, ih, List.mem_cons]
      constructor
      · rintro ⟨hd, m, hm, hlen, rest⟩
        exact ⟨hd, m, Or.inr hm, hlen, rest⟩
      · rintro ⟨hd, m, hm | hm, hlen, rest⟩
        · cases hm; exact absurd hlen h2'
        · exact ⟨hd, m, hm, hlen, rest⟩
    · match m2 with
      | d2 :: t2 =>
        have hunf : firstSymmetric (d1 :: t1) ((d2 :: t2) :: rest) =
            if d1.queryIdx = d2.trainIdx ∧ d2.queryIdx = d1.trainIdx then
              some { queryIdx := d1.queryIdx, trainIdx := d1.trainIdx,
                     distance := d1.distance }
            else firstSymmetric (d1 :: t1) rest := by
          rw [firstSymmetric, if_neg h2]
        rw [hunf]
        by_cases hsym : d1.queryIdx = d2.trainIdx ∧ d2.queryIdx = d1.trainIdx
        · rw [if_pos hsym]
          simp only [Option.some_inj, List.mem_cons]
          constructor
          · intro hd
            exact ⟨hd.symm, d2 :: t2, Or.inl rfl, Nat.not_lt.mp h2,
              d2, rfl, hsym.1, hsym.2⟩
          · rintro ⟨hd, _⟩
            exact hd.symm
        · rw [if_neg hsym, ih]
          simp only [List.mem_cons]
          constructor
          · rintro ⟨hd, m, hm, hlen, hrest⟩
            exact ⟨hd, m, Or.inr hm, hlen, hrest⟩
          · rintro ⟨hd, m, hm | hm, hlen, e2, he2, hq, ht⟩
            · cases hm
              simp only [List.head?_cons, Option.some_inj] at he2
              cases he2
              exact absurd ⟨hq, ht⟩ hsym
            · exact ⟨hd, m, hm, hlen, e2, he2, hq, ht⟩

theorem mem_symmetryTest (matches1 matches2 : List (List DMatch)) (d : DMatch) :
    d ∈ symmetryTest matches1 matches2 [] ↔
      (∃ m1 ∈ matches1, 2 ≤ m1.length ∧ m1.head? = some d) ∧
        ∃ m2 ∈ matches2, 2 ≤ m2.length ∧
          ∃ d2, m2.head? = some d2 ∧
            d.queryIdx = d2.trainIdx ∧ d2.queryIdx = d.trainIdx := by
  rw [symmetryTest_eq_filterMap, List.mem_filterMap]
  constructor
  · rintro ⟨m1, hm1, hf⟩
    by_cases h1 : m1.length < 2
    · simp [h1] at hf
    · simp only [h1, if_false] at hf
      match m1, h1 with
      | d1 :: t1, _ =>
        rw [firstSymmetric_eq_some] at hf
        obtain ⟨hd, m2, hm2, hlen2, d2, he2, hq, ht⟩ := hf
        cases hd
        exact ⟨⟨d1 :: t1, hm1, by omega, rfl⟩,
          m2, hm2, hlen2, d2, he2, hq, ht⟩
  · rintro ⟨⟨m1, hm1, hlen1, hhd⟩, m2, hm2, hlen2, d2, he2, hq, ht⟩
    refine ⟨m1, hm1, ?_⟩
    have h1 : ¬ m1.length < 2 := by omega
    simp only [h1, if_false]
    match m1, hhd with
    | e1 :: t1, hhd =>
      simp only [List.head?_cons, Option.some_inj] at hhd
      cases hhd
      rw [firstSymmetric_eq_some]
      exact ⟨rfl, m2, hm2, hlen2, d2, he2, hq, ht⟩

/-- The external fundamental-matrix estimator `cv::findFundamentalMat`,
as an oracle over an opaque matrix type `M`: the `CV_FM_RANSAC` call takes
the two point sequences, the epipolar distance threshold and the confidence
level and returns a matrix with the inlier mask; the `CV_FM_8POINT` call
takes the two point sequences and returns a matrix. -/
structure FundOracle (M : Type) where
  findFundRansac : List Point → List Point → ℚ → ℚ → M × List Bool
  findFund8Point : List Point → List Point → M

/-- The keypoint-position lookup `keypoints[idx].pt` done by `ransacTest`
(the C++ indexing is unchecked; out-of-range access is modelled by a default
point). -/
def kpAt (kps : List KeyPoint) (i : ℤ) : Point :=
  (kps.getD i.toNat { pt := { x := 0, y := 0 } }).pt

/-- The left coordinates pushed for a match sequence: for each match, the
position of `keypoints1[queryIdx]`. -/
def pointsFor1 (keypoints1 : List KeyPoint) (ms : List DMatch) : List Point :=
  ms.map (fun m => kpAt keypoints1 m.queryIdx)

/-- The right coordinates pushed for a match sequence: for each match, the
position of `keypoints2[trainIdx]`. -/
def pointsFor2 (keypoints2 : List KeyPoint) (ms : List DMatch) : List Point :=
  ms.map (fun m => kpAt keypoints2 m.trainIdx)

/-- The inlier-extraction loop of `ransacTest`: walk the inlier mask and the
match sequence in lockstep and keep the entries whose mask bit is set.
The C++ loop terminates on the mask iterator alone; the case of a mask
longer than the match sequence (where the C++ would advance `itM` past the
end, undefined behavior) is modelled by truncation. -/
def extractInliers : List Bool → List DMatch → List DMatch
  | [], _ => []
  | _ :: _, [] => []
  | b :: bs, m :: ms =>
    if b then m :: extractInliers bs ms else extractInliers bs ms

/-- `RobustMatcher::ransacTest`: append the input keypoint positions to
the member buffers `points1`/`points2` (which are never cleared on entry),
run the RANSAC estimator on the accumulated buffers, append the masked
inliers to the caller-supplied `outMatches`, and, when `refineF` is set,
refill the buffers from `outMatches` and replace the matrix by the 8-point
re-estimate. Returns the matrix, the updated member state and the updated
`outMatches`. -/
def ransacTest {M : Type} (oracle : FundOracle M) (rm : RobustMatcher)
    (ms : List DMatch) (keypoints1 keypoints2 : List KeyPoint)
    (outMatches : List DMatch) : M × RobustMatcher × List DMatch :=
  let p1 := rm.points1 ++ pointsFor1 keypoints1 ms
  let p2 := rm.points2 ++ pointsFor2 keypoints2 ms
  let res := oracle.findFundRansac p1 p2 rm.distance rm.confidence
  let out := outMatches ++ extractInliers res.2 ms
  if rm.refineF then
    let q1 := pointsFor1 keypoints1 out
    let q2 := pointsFor2 keypoints2 out
    (oracle.findFund8Point q1 q2, { rm with points1 := q1, points2 := q2 }, out)
  else
    (res.1, { rm with points1 := p1, points2 := p2 }, out)

theorem extractInliers_sublist (bs : List Bool) (ms : List DMatch) :
    (extractInliers bs ms).Sublist ms := by
  induction bs generalizing ms with
  | nil => exact List.nil_sublist ms
  | cons b bs ih =>
    match ms with
    | [] => exact List.Sublist.refl []
    | m :: ms =>
      by_cases hb : b
      · simpa [extractInliers, hb] using (ih ms).cons₂ m
      · simpa [extractInliers, hb] using (ih ms).cons m

theorem ransacTest_out {M : Type} (oracle : FundOracle M) (rm : RobustMatcher)
    (ms : List DMatch) (keypoints1 keypoints2 : List KeyPoint)
    (outMatches : List DMatch) :
    (ransacTest oracle rm ms keypoints1 keypoints2 outMatches).2.2 =
      outMatches ++
        extractInliers
          (oracle.findFundRansac (rm.points1 ++ pointsFor1 keypoints1 ms)
            (rm.points2 ++ pointsFor2 keypoints2 ms)
            rm.distance rm.confidence).2 ms := by
  unfold ransacTest
  by_cases h : rm.refineF <;> simp [h]

/-- Statement helper: in the neighbor-list container `ms`, some surviving
entry (at least two neighbors) has a rank-0 match pairing query index `i`
with train index `j`. -/
def bestIs (ms : List (List DMatch)) (i j : ℤ) : Prop :=
  ∃ e ∈ ms, 2 ≤ e.length ∧ ∃ d, e.head? = some d ∧ d.queryIdx = i ∧ d.trainIdx = j

theorem pair_mem_symmetryTest (matches1 matches2 : List (List DMatch))
    (i j : ℤ) :
    (∃ d ∈ symmetryTest matches1 matches2 [],
        d.queryIdx = i ∧ d.trainIdx = j) ↔
      bestIs matches1 i j ∧ bestIs matches2 j i := by
  constructor
  · rintro ⟨d, hmem, hq, ht⟩
    obtain ⟨⟨e1, he1, hlen1, hhd1⟩, e2, he2, hlen2, d2, hhd2, hq2, ht2⟩ :=
      (mem_symmetryTest matches1 matches2 d).mp hmem
    refine ⟨⟨e1, he1, hlen1, d, hhd1, hq, ht⟩,
      e2, he2, hlen2, d2, hhd2, ?_, ?_⟩
    · rw [ht2, ht]
    · rw [← hq2, hq]
  · rintro ⟨⟨e1, he1, hlen1, d, hhd1, hq, ht⟩,
      e2, he2, hlen2, d2, hhd2, hq2, ht2⟩
    refine ⟨d, (mem_symmetryTest matches1 matches2 d).mpr
      ⟨⟨e1, he1, hlen1, hhd1⟩, e2, he2, hlen2, d2, hhd2, ?_, ?_⟩, hq, ht⟩
    · rw [hq, ht2]
    · rw [hq2, ht]

/-- Claim C3: `ratioTest` keeps an entry unchanged exactly when it has at
least two neighbors and the nearest-to-second distance ratio is at most the
threshold (an entry exactly at the threshold is kept); every other entry is
cleared to an empty list, and the returned count is the number of discarded
entries. -/
theorem claim_C3_ratioTest_keep_iff (ratio : ℚ) (ms : List (List DMatch)) :
    (ratioTest ratio ms).2 =
        ms.map (fun m => if ratioKeep ratio m then m else []) ∧
      (ratioTest ratio ms).1 =
        (ms.filter (fun m => !(ratioKeep ratio m))).length ∧
      ∀ m, ratioKeep ratio m = true ↔
        ∃ d0 d1 tl, m = d0 :: d1 :: tl ∧ d0.distance / d1.distance ≤ ratio := by
  refine ⟨?_, ?_, fun m => ratioKeep_iff ratio m⟩
  · rw [ratioTest_eq]
  · rw [ratioTest_eq]

/-- Claim C7: `ratioTest` never changes the length of the neighbor-list
container; each position of the result holds either the original entry
(survivors are untouched) or the empty list (cleared in place). The
embedding reads only the ratio threshold and the container, so no other
matcher state is involved. -/
theorem claim_C7_ratioTest_frame (ratio : ℚ) (ms : List (List DMatch)) :
    (ratioTest ratio ms).2.length = ms.length ∧
      ∀ k : Nat, (ratioTest ratio ms).2[k]? = ms[k]? ∨
        (ratioTest ratio ms).2[k]? = some [] := by
  rw [ratioTest_eq]
  refine ⟨List.length_map ms _, fun k => ?_⟩
  rw [List.getElem?_map]
  cases hk : ms[k]? with
  | none => left; rfl
  | some m =>
    by_cases hkeep : ratioKeep ratio m
    · left; simp [hkeep]
    · right; simp [hkeep]

/-- Claim C10: the count returned by `ratioTest` includes the entries that
were already empty (every entry with fewer than two neighbors counts, plus
every two-neighbor entry failing the ratio check); consequently running
`ratioTest` again on its own output leaves the container unchanged and
returns the same count again (the number of cleared placeholder entries),
not zero. -/
theorem claim_C10_ratioTest_recount (ratio : ℚ) (ms : List (List DMatch)) :
    (ratioTest ratio ms).1 =
        (ms.filter (fun m => m.length < 2)).length +
          (ms.filter (fun m => 2 ≤ m.length && !(ratioKeep ratio m))).length ∧
      ratioTest ratio (ratioTest ratio ms).2 = ratioTest ratio ms := by
  have hnil : ratioKeep ratio [] = false := rfl
  constructor
  · rw [ratioTest_eq]
    induction ms with
    | nil => rfl
    | cons m rest ih =>
      rcases m with _ | ⟨d0, _ | ⟨d1, tl⟩⟩
      · have h1 : (!(ratioKeep ratio [])) = true := rfl
        simp only [List.filter_cons, h1]
        simp only [List.length_cons, List.length_nil]
        norm_num
        omega
      · have h1 : (!(ratioKeep ratio [d0])) = true := rfl
        simp only [List.filter_cons, h1]
        simp only [List.length_cons, List.length_nil]
        norm_num
        omega
      · have h2 : decide ((d0 :: d1 :: tl).length < 2) = false := by simp
        by_cases hk : ratioKeep ratio (d0 :: d1 :: tl)
        · have h1 : (!(ratioKeep ratio (d0 :: d1 :: tl))) = false := by
            simp [hk]
          have h3 : (decide (2 ≤ (d0 :: d1 :: tl).length) &&
              !(ratioKeep ratio (d0 :: d1 :: tl))) = false := by
            simp [hk]
          simp only [List.filter_cons, h1, h2, h3]
          norm_num
          omega
        · have h1 : (!(ratioKeep ratio (d0 :: d1 :: tl))) = true := by
            simp [hk]
          have h3 : (decide (2 ≤ (d0 :: d1 :: tl).length) &&
              !(ratioKeep ratio (d0 :: d1 :: tl))) = true := by
            simp [hk]
          simp only [List.filter_cons, h1, h2, h3]
          simp only [List.length_cons]
          norm_num
          omega
  · have hff : ∀ m : List DMatch,
        (if ratioKeep ratio (if ratioKeep ratio m then m else []) then
            (if ratioKeep ratio m then m else []) else []) =
          if ratioKeep ratio m then m else [] := by
      intro m
      by_cases hk : ratioKeep ratio m <;> simp [hk, hnil]
    have hkf : ∀ m : List DMatch,
        (!(ratioKeep ratio (if ratioKeep ratio m then m else []))) =
          (!(ratioKeep ratio m)) := by
      intro m
      by_cases hk : ratioKeep ratio m <;> simp [hk, hnil]
    rw [ratioTest_eq ratio ms]
    dsimp only
    rw [ratioTest_eq]
    simp only [Prod.mk.injEq]
    constructor
    · rw [List.filter_map, List.length_map]
      congr 1
      apply List.filter_congr
      intro m _
      simpa only [Function.comp_def] using hkf m
    · rw [List.map_map]
      apply List.map_congr_left
      intro m _
      simpa only [Function.comp_def] using hff m

/-- Claim C4: the output of `symmetryTest` is the in-order image of the
surviving 1-to-2 entries under the first-symmetric-hit scan (so it follows
the 1-to-2 scan order and each outer entry contributes at most one
correspondence), and a correspondence is in the output exactly when some
surviving 1-to-2 entry has it as rank-0 match and some surviving 2-to-1
entry has the mirrored rank-0 match. -/
theorem claim_C4_symmetryTest_spec (matches1 matches2 : List (List DMatch)) :
    symmetryTest matches1 matches2 [] =
        matches1.filterMap
          (fun m1 => if m1.length < 2 then none
            else firstSymmetric m1 matches2) ∧
      ∀ d, d ∈ symmetryTest matches1 matches2 [] ↔
        (∃ m1 ∈ matches1, 2 ≤ m1.length ∧ m1.head? = some d) ∧
          ∃ m2 ∈ matches2, 2 ≤ m2.length ∧
            ∃ d2, m2.head? = some d2 ∧
              d.queryIdx = d2.trainIdx ∧ d2.queryIdx = d.trainIdx :=
  ⟨symmetryTest_eq_filterMap matches1 matches2,
    fun d => mem_symmetryTest matches1 matches2 d⟩

/-- Claim C8: a pair (i, j) appears in the symmetric output exactly when
(j, i) appears in the output with the two images' roles exchanged. -/
theorem claim_C8_symmetryTest_swap (matches1 matches2 : List (List DMatch))
    (i j : ℤ) :
    (∃ d ∈ symmetryTest matches1 matches2 [],
        d.queryIdx = i ∧ d.trainIdx = j) ↔
      ∃ d ∈ symmetryTest matches2 matches1 [],
        d.queryIdx = j ∧ d.trainIdx = i := by
  rw [pair_mem_symmetryTest, pair_mem_symmetryTest]
  exact and_comm

/-- Claim C9: both output-vector writers only append. `symmetryTest` leaves
any elements already in `symMatches` in front of the new correspondences,
and `ransacTest` leaves any elements already in `outMatches` in front of
the newly extracted inliers. -/
theorem claim_C9_append_only {M : Type} (oracle : FundOracle M)
    (rm : RobustMatcher) (ms : List DMatch)
    (keypoints1 keypoints2 : List KeyPoint) (outMatches : List DMatch)
    (matches1 matches2 : List (List DMatch)) (symMatches : List DMatch) :
    symmetryTest matches1 matches2 symMatches =
        symMatches ++ symmetryTest matches1 matches2 [] ∧
      (ransacTest oracle rm ms keypoints1 keypoints2 outMatches).2.2 =
        outMatches ++
          (ransacTest oracle rm ms keypoints1 keypoints2 []).2.2 := by
  constructor
  · rw [show symMatches = symMatches ++ [] from (List.append_nil _).symm,
      symmetryTest_append]
    simp
  · rw [ransacTest_out, ransacTest_out]
    simp

/-- Claim C5: the inlier matches appended by `ransacTest` form a subsequence
of its input correspondences, so their number is at most the input count;
likewise the symmetric set is at most as large as the 1-to-2 neighbor
container, witnessing the stage-to-stage size monotonicity. -/
theorem claim_C5_size_monotone {M : Type} (oracle : FundOracle M)
    (rm : RobustMatcher) (ms : List DMatch)
    (keypoints1 keypoints2 : List KeyPoint)
    (matches1 matches2 : List (List DMatch)) :
    ((ransacTest oracle rm ms keypoints1 keypoints2 []).2.2).Sublist ms ∧
      ((ransacTest oracle rm ms keypoints1 keypoints2 []).2.2).length ≤
        ms.length ∧
      (symmetryTest matches1 matches2 []).length ≤ matches1.length := by
  have hsub : ((ransacTest oracle rm ms keypoints1 keypoints2 []).2.2).Sublist ms := by
    rw [ransacTest_out]
    simpa using extractInliers_sublist _ ms
  refine ⟨hsub, hsub.length_le, ?_⟩
  rw [symmetryTest_eq_filterMap]
  exact List.length_filterMap_le _ _

/-- Claim C6: with the refine flag set, `ransacTest` returns the 8-point
re-estimate computed from exactly the point pairs of the returned inlier
match set, while that inlier match set itself is the same as without
refinement (refinement changes only the matrix). -/
theorem claim_C6_refine (M : Type) (oracle : FundOracle M)
    (rm : RobustMatcher) (ms : List DMatch)
    (keypoints1 keypoints2 : List KeyPoint) (outMatches : List DMatch)
    (h : rm.refineF = true) :
    (ransacTest oracle rm ms keypoints1 keypoints2 outMatches).2.2 =
        (ransacTest oracle { rm with refineF := false } ms keypoints1
          keypoints2 outMatches).2.2 ∧
      (ransacTest oracle rm ms keypoints1 keypoints2 outMatches).1 =
        oracle.findFund8Point
          (pointsFor1 keypoints1
            (ransacTest oracle rm ms keypoints1 keypoints2 outMatches).2.2)
          (pointsFor2 keypoints2
            (ransacTest oracle rm ms keypoints1 keypoints2 outMatches).2.2) := by
  unfold ransacTest
  simp [h]

/-- A concrete oracle whose matrix type is `Nat`: the RANSAC call returns
the sentinel 42 with an all-outlier mask, and the 8-point call returns the
sentinel 7. Used to exhibit concrete runs of `ransacTest`. -/
def oracleSentinel : FundOracle Nat :=
  { findFundRansac := fun _ _ _ _ => (42, [false, false, false])
    findFund8Point := fun _ _ => 7 }

/-- A concrete oracle whose matrix type is `Nat`: both calls return the
number of left-hand points they were given, exposing how many point pairs
`ransacTest` feeds to the estimator. -/
def oracleCountPoints : FundOracle Nat :=
  { findFundRansac := fun p1 _ _ _ => (p1.length, [])
    findFund8Point := fun p1 _ => p1.length }

/-- A matcher freshly constructed except that refinement is disabled. -/
def rmNoRefine : RobustMatcher := { refineF := false }

/-- A freshly constructed matcher with all defaults (refinement on). -/
def rmDefault : RobustMatcher := {}

/-- Three keypoints for concrete runs. -/
def kps3 : List KeyPoint :=
  [{ pt := { x := 0, y := 0 } }, { pt := { x := 1, y := 0 } },
   { pt := { x := 0, y := 1 } }]

/-- Three correspondences (fewer than the eight the spec says are needed). -/
def matches3 : List DMatch :=
  [{ queryIdx := 0, trainIdx := 0, distance := 1 },
   { queryIdx := 1, trainIdx := 1, distance := 1 },
   { queryIdx := 2, trainIdx := 2, distance := 1 }]

/-- Claim C1 counterexample: on a concrete input with only three
correspondences, `ransacTest` does not signal any error. It invokes the
robust estimator and hands its matrix back (the sentinel 42 is only
produced by `findFundRansac`), so the claimed `InsufficientCorrespondences`
failure path does not exist in the code. -/
theorem claim_C1_counterexample :
    matches3.length < 8 ∧
      (ransacTest oracleSentinel rmNoRefine matches3 kps3 kps3 []).1 = 42 ∧
      (ransacTest oracleSentinel rmNoRefine matches3 kps3 kps3 []).2.2 = [] := by
  refine ⟨by decide, rfl, rfl⟩

/-- Claim C1 as amended: `ransacTest` performs no minimum-size check and
signals no error; even with fewer than 8 correspondences it invokes the
robust estimator on the accumulated point buffers and (with refinement off)
returns that estimator's matrix. -/
theorem claim_C1_no_size_check {M : Type} (oracle : FundOracle M)
    (rm : RobustMatcher) (ms : List DMatch)
    (keypoints1 keypoints2 : List KeyPoint) (outMatches : List DMatch)
    (_hlt : ms.length < 8) (href : rm.refineF = false) :
    (ransacTest oracle rm ms keypoints1 keypoints2 outMatches).1 =
      (oracle.findFundRansac (rm.points1 ++ pointsFor1 keypoints1 ms)
        (rm.points2 ++ pointsFor2 keypoints2 ms)
        rm.distance rm.confidence).1 := by
  unfold ransacTest
  simp [href]

/-- Witness for the amended claim C1 at a concrete input. -/
theorem claim_C1_no_size_check_witness :
    matches3.length < 8 ∧ rmNoRefine.refineF = false ∧
      (ransacTest oracleSentinel rmNoRefine matches3 kps3 kps3 []).1 =
        (oracleSentinel.findFundRansac
          (rmNoRefine.points1 ++ pointsFor1 kps3 matches3)
          (rmNoRefine.points2 ++ pointsFor2 kps3 matches3)
          rmNoRefine.distance rmNoRefine.confidence).1 :=
  ⟨by decide, rfl,
    claim_C1_no_size_check oracleSentinel rmNoRefine matches3 kps3 kps3 []
      (by decide) rfl⟩

/-- One correspondence for the first concrete `ransacTest` call. -/
def matchA : DMatch := { queryIdx := 0, trainIdx := 0, distance := 1 }

/-- One correspondence for the second concrete `ransacTest` call. -/
def matchB : DMatch := { queryIdx := 1, trainIdx := 1, distance := 1 }

/-- Claim C2 failing run: the member buffers `points1`/`points2` are not
cleared between calls. The first call on a fresh matcher feeds the
estimator exactly 1 point pair for its 1 correspondence, but the second
call on the resulting state feeds 2 point pairs for its 1 correspondence
(the stale pair from the first call plus the new one), so the sequences fed
to the estimator no longer have length equal to the number of input
correspondences and the mask-to-correspondence zip is misaligned. -/
theorem claim_C2_stale_buffers :
    (ransacTest oracleCountPoints rmNoRefine [matchA] kps3 kps3 []).1 = 1 ∧
      [matchB].length = 1 ∧
      (ransacTest oracleCountPoints
        (ransacTest oracleCountPoints rmNoRefine [matchA] kps3 kps3 []).2.1
        [matchB] kps3 kps3 []).1 = 2 :=
  ⟨rfl, rfl, rfl⟩

/-- On a matcher whose buffers are empty (a fresh object, or a first call),
the point sequences fed to the estimator do have equal length, that length
is the number of input correspondences, and pair i holds the keypoint
coordinates of correspondence i. -/
theorem ransacTest_fresh_points_aligned (rm : RobustMatcher)
    (ms : List DMatch) (keypoints1 keypoints2 : List KeyPoint)
    (h1 : rm.points1 = []) (h2 : rm.points2 = []) :
    (rm.points1 ++ pointsFor1 keypoints1 ms).length =
        (rm.points2 ++ pointsFor2 keypoints2 ms).length ∧
      (rm.points1 ++ pointsFor1 keypoints1 ms).length = ms.length ∧
      ∀ k : Nat, (rm.points1 ++ pointsFor1 keypoints1 ms)[k]? =
          (ms[k]?.map (fun m => kpAt keypoints1 m.queryIdx)) ∧
        (rm.points2 ++ pointsFor2 keypoints2 ms)[k]? =
          (ms[k]?.map (fun m => kpAt keypoints2 m.trainIdx)) := by
  rw [h1, h2]
  refine ⟨by simp [pointsFor1, pointsFor2], by simp [pointsFor1], fun k => ?_⟩
  constructor
  · simp [pointsFor1, List.getElem?_map]
  · simp [pointsFor2, List.getElem?_map]

/-- Witness for claim C6 at a concrete input: the default matcher has the
refine flag set, and there the refined matrix is the 8-point re-estimate of
the returned inlier set's point pairs while the inlier set matches the
unrefined run. -/
theorem claim_C6_refine_witness :
    rmDefault.refineF = true ∧
      ((ransacTest oracleSentinel rmDefault matches3 kps3 kps3 []).2.2 =
          (ransacTest oracleSentinel { rmDefault with refineF := false }
            matches3 kps3 kps3 []).2.2 ∧
        (ransacTest oracleSentinel rmDefault matches3 kps3 kps3 []).1 =
          oracleSentinel.findFund8Point
            (pointsFor1 kps3
              (ransacTest oracleSentinel rmDefault matches3 kps3 kps3 []).2.2)
            (pointsFor2 kps3
              (ransacTest oracleSentinel rmDefault matches3 kps3 kps3 []).2.2)) :=
  ⟨rfl, claim_C6_refine Nat oracleSentinel rmDefault matches3 kps3 kps3 [] rfl⟩
